import Mathlib

/-!
# Verification of the trimmed serendipity element construction (`FIAT/Sminus.py`)

This file shallowly embeds the symbolic basis construction of the trimmed
serendipity finite elements (classes `TrimmedSerendipity`,
`TrimmedSerendipityEdge`, `TrimmedSerendipityFace` and the term-generator
functions of `src/FIAT/Sminus.py`) and proves properties about it.

Symbolic sympy expressions are embedded as an expression AST `Expr` over the
three coordinate variables `x = var 0`, `y = var 1`, `z = var 2`, with rational
constants (the source manipulates exact rationals for the reference cells used
here).  Python exceptions are embedded as an error type `PyError`; fallible
constructors return `Except PyError _`.
-/

/-- Symbolic expressions in the three coordinate variables, mirroring the sympy
expressions built by `Sminus.py` (`x, y, z = symbols('x y z')`). -/
inductive Expr where
  | const : ℚ → Expr
  | var : Fin 3 → Expr
  | add : Expr → Expr → Expr
  | sub : Expr → Expr → Expr
  | mul : Expr → Expr → Expr
  | neg : Expr → Expr
  | div : Expr → Expr → Expr
deriving DecidableEq, Repr

namespace Expr

/-- Numeric evaluation of an expression at a point `(x, y, z)` (the semantics of
full sympy substitution; division by zero yields `0`, which never occurs on the
denominators the source produces). -/
def eval (e : Expr) (p : Fin 3 → ℚ) : ℚ :=
  match e with
  | const c => c
  | var i => p i
  | add a b => eval a p + eval b p
  | sub a b => eval a p - eval b p
  | mul a b => eval a p * eval b p
  | neg a => -(eval a p)
  | div a b => eval a p / eval b p

/-- Partial substitution: replace the first two variables `x`, `y` by numeric
values, leaving `z` (and the expression structure) untouched.  This is the
embedding of `f.evalf(subs={x: px, y: py})` as performed by
`TrimmedSerendipity.tabulate`, whose `subs` dictionary ranges over
`variables[:2]` only. -/
def subXY (e : Expr) (px py : ℚ) : Expr :=
  match e with
  | const c => const c
  | var i => if i = 0 then const px else if i = 1 then const py else var i
  | add a b => add (subXY a px py) (subXY b px py)
  | sub a b => sub (subXY a px py) (subXY b px py)
  | mul a b => mul (subXY a px py) (subXY b px py)
  | neg a => neg (subXY a px py)
  | div a b => div (subXY a px py) (subXY b px py)

/-- Does variable `i` occur in the expression? -/
def occursVar (i : Fin 3) (e : Expr) : Bool :=
  match e with
  | const _ => false
  | var j => j = i
  | add a b => occursVar i a || occursVar i b
  | sub a b => occursVar i a || occursVar i b
  | mul a b => occursVar i a || occursVar i b
  | neg a => occursVar i a
  | div a b => occursVar i a || occursVar i b

/-- Symbolic partial derivative with respect to variable `i` (the embedding of
sympy `diff`, applied entrywise by `tabulate`). -/
def ediff (e : Expr) (i : Fin 3) : Expr :=
  match e with
  | const _ => const 0
  | var j => if j = i then const 1 else const 0
  | add a b => add (ediff a i) (ediff b i)
  | sub a b => sub (ediff a i) (ediff b i)
  | mul a b => add (mul (ediff a i) b) (mul a (ediff b i))
  | neg a => neg (ediff a i)
  | div a b => div (sub (mul (ediff a i) b) (mul a (ediff b i))) (mul b b)

end Expr

/-- `leg j t`: the degree-`j` Legendre polynomial applied to the expression `t`,
via the Bonnet recurrence (the embedding of sympy's `legendre`, called `leg` in
the source).  `leg 0 t = 1` and `leg 1 t = t`, as in sympy. -/
def leg : ℕ → Expr → Expr
  | 0, _ => Expr.const 1
  | 1, t => t
  | (n + 2), t =>
      Expr.div
        (Expr.sub (Expr.mul (Expr.mul (Expr.const (2 * n + 3)) t) (leg (n + 1) t))
          (Expr.mul (Expr.const (n + 1)) (leg n t)))
        (Expr.const (n + 2))

/-- `triangular_number(n) = int((n+1)*n/2)` from the source.  The product of two
consecutive integers is even, so Python's float division followed by `int` is
the exact integer quotient, embedded here as integer division. -/
def triangular_number (n : ℤ) : ℤ := (n + 1) * n / 2

/-- `choose_ijk_total(degree)` from the source: computes `(2+degree)!` and
`degree!` by loops and returns `int(top / (2*bottom))`, the exact quotient
`(degree+1)(degree+2)/2`, embedded as exact natural division. -/
def choose_ijk_total (degree : ℕ) : ℕ :=
  Nat.factorial (2 + degree) / (2 * Nat.factorial degree)

/-- A 2-component symbolic vector (one entry of a 2D basis). -/
abbrev Vec2 := Expr × Expr

/-- A 3-component symbolic vector (one entry of a 3D basis). -/
abbrev Vec3 := Expr × Expr × Expr

/-! ## 2D term generators -/

/-- `e_lambda_1_2d_part_one` from the source: the four `degree`-term edge
families of the 2D `E-lambda` block. -/
def e_lambda_1_2d_part_one (deg : ℕ) (dx dy : Expr × Expr) (x_mid y_mid : Expr) :
    List Vec2 :=
  ((List.range deg).map fun j => (Expr.const 0, Expr.mul (Expr.neg (leg j y_mid)) dx.1)) ++
  ((List.range deg).map fun j => (Expr.const 0, Expr.mul (Expr.neg (leg j y_mid)) dx.2)) ++
  ((List.range deg).map fun j => (Expr.mul (Expr.neg (leg j x_mid)) dy.1, Expr.const 0)) ++
  ((List.range deg).map fun j => (Expr.mul (Expr.neg (leg j x_mid)) dy.2, Expr.const 0))

/-- `e_lambda_tilde_1_2d_part_two` from the source: the four tilde closing
terms of the 2D edge family (note: this generator exists in the source but is
not invoked by either element assembler). -/
def e_lambda_tilde_1_2d_part_two (deg : ℕ) (dx dy : Expr × Expr) (x_mid y_mid : Expr) :
    List Vec2 :=
  [(Expr.mul (Expr.neg (leg deg x_mid)) dy.1,
    Expr.div (Expr.mul (Expr.mul (Expr.neg (leg (deg - 1) x_mid)) dx.1) dx.2)
      (Expr.const (deg + 1))),
   (Expr.mul (Expr.neg (leg deg x_mid)) dy.2,
    Expr.div (Expr.mul (Expr.mul (leg (deg - 1) x_mid) dx.1) dx.2) (Expr.const (deg + 1))),
   (Expr.div (Expr.mul (Expr.mul (Expr.neg (leg (deg - 1) y_mid)) dy.1) dy.2)
      (Expr.const (deg + 1)),
    Expr.mul (Expr.neg (leg deg y_mid)) dx.1),
   (Expr.div (Expr.mul (Expr.mul (leg (deg - 1) y_mid) dy.1) dy.2) (Expr.const (deg + 1)),
    Expr.mul (Expr.neg (leg deg y_mid)) dx.2)]

/-- `e_lambda_1_2d` from the source: part one followed by the tilde terms. -/
def e_lambda_1_2d (deg : ℕ) (dx dy : Expr × Expr) (x_mid y_mid : Expr) : List Vec2 :=
  e_lambda_1_2d_part_one deg dx dy x_mid y_mid ++
    e_lambda_tilde_1_2d_part_two deg dx dy x_mid y_mid

/-- `determine_f_lambda_portions_2d` from the source: the list
`[2, 3, ..., deg-1]` (empty for `deg < 2`). -/
def determine_f_lambda_portions_2d (deg : ℕ) : List ℕ :=
  if deg < 2 then [] else List.range' 2 (deg - 2)

/-- `f_lambda_1_2d_pieces` from the source: the face terms of one total degree.
The `current_deg = 2` base case is written out explicitly in the source; the
general case pairs `j + k = current_deg - 2`. -/
def f_lambda_1_2d_pieces (current_deg : ℕ) (dx dy : Expr × Expr) (x_mid y_mid : Expr) :
    List Vec2 :=
  if current_deg = 2 then
    [(Expr.mul (Expr.mul (Expr.mul (leg 0 x_mid) (leg 0 y_mid)) dy.1) dy.2, Expr.const 0),
     (Expr.const 0, Expr.mul (Expr.mul (Expr.mul (leg 0 x_mid) (leg 0 y_mid)) dx.1) dx.2)]
  else
    (List.range (current_deg - 2 + 1)).flatMap fun j =>
      let k := current_deg - 2 - j
      [(Expr.mul (Expr.mul (Expr.mul (leg j x_mid) (leg k y_mid)) dy.1) dy.2, Expr.const 0),
       (Expr.const 0, Expr.mul (Expr.mul (Expr.mul (leg j x_mid) (leg k y_mid)) dx.1) dx.2)]

/-- `f_lambda_1_2d_trim` from the source. -/
def f_lambda_1_2d_trim (deg : ℕ) (dx dy : Expr × Expr) (x_mid y_mid : Expr) : List Vec2 :=
  (determine_f_lambda_portions_2d deg).flatMap fun i =>
    f_lambda_1_2d_pieces i dx dy x_mid y_mid

/-- `f_lambda_1_2d_tilde` from the source: two fixed terms plus one coupled term
per `k ∈ [1, deg-1)`. -/
def f_lambda_1_2d_tilde (deg : ℕ) (dx dy : Expr × Expr) (x_mid y_mid : Expr) : List Vec2 :=
  [(Expr.mul (Expr.mul (leg (deg - 2) y_mid) dy.1) dy.2, Expr.const 0),
   (Expr.const 0, Expr.mul (Expr.mul (leg (deg - 2) x_mid) dx.1) dx.2)] ++
  ((List.range' 1 (deg - 1 - 1)).map fun k =>
    (Expr.mul (Expr.mul (Expr.mul (leg k x_mid) (leg (deg - k - 2) y_mid)) dy.1) dy.2,
     Expr.mul (Expr.mul (Expr.mul (Expr.neg (leg (k - 1) x_mid))
       (leg (deg - k - 1) y_mid)) dx.1) dx.2))

/-- `trimmed_f_lambda_2d` from the source. -/
def trimmed_f_lambda_2d (deg : ℕ) (dx dy : Expr × Expr) (x_mid y_mid : Expr) : List Vec2 :=
  f_lambda_1_2d_trim deg dx dy x_mid y_mid ++ f_lambda_1_2d_tilde deg dx dy x_mid y_mid

/-! ## 3D term generators -/

/-- `e_lambda_1_3d_piece` from the source: the 12 single-axis edge terms of one
degree (4 per axis, one per corner pattern of the two orthogonal axes). -/
def e_lambda_1_3d_piece (current_deg : ℕ) (dx dy dz : Expr × Expr)
    (x_mid y_mid z_mid : Expr) : List Vec3 :=
  [(Expr.const 0, Expr.const 0, Expr.mul (Expr.mul (leg current_deg z_mid) dx.1) dy.2),
   (Expr.const 0, Expr.const 0, Expr.mul (Expr.mul (leg current_deg z_mid) dx.2) dy.2),
   (Expr.const 0, Expr.const 0, Expr.mul (Expr.mul (leg current_deg z_mid) dx.2) dy.1),
   (Expr.const 0, Expr.const 0, Expr.mul (Expr.mul (leg current_deg z_mid) dx.1) dy.1),
   (Expr.const 0, Expr.mul (Expr.mul (leg current_deg y_mid) dx.1) dz.2, Expr.const 0),
   (Expr.const 0, Expr.mul (Expr.mul (leg current_deg y_mid) dx.2) dz.2, Expr.const 0),
   (Expr.const 0, Expr.mul (Expr.mul (leg current_deg y_mid) dx.2) dz.1, Expr.const 0),
   (Expr.const 0, Expr.mul (Expr.mul (leg current_deg y_mid) dx.1) dz.1, Expr.const 0),
   (Expr.mul (Expr.mul (leg current_deg x_mid) dy.1) dz.1, Expr.const 0, Expr.const 0),
   (Expr.mul (Expr.mul (leg current_deg x_mid) dy.2) dz.1, Expr.const 0, Expr.const 0),
   (Expr.mul (Expr.mul (leg current_deg x_mid) dy.2) dz.2, Expr.const 0, Expr.const 0),
   (Expr.mul (Expr.mul (leg current_deg x_mid) dy.1) dz.2, Expr.const 0, Expr.const 0)]

/-- `e_lambda_1_3d_trimmed` from the source: concatenation of the pieces for
`i ∈ [0, max_deg)`. -/
def e_lambda_1_3d_trimmed (max_deg : ℕ) (dx dy dz : Expr × Expr)
    (x_mid y_mid z_mid : Expr) : List Vec3 :=
  (List.range max_deg).flatMap fun i => e_lambda_1_3d_piece i dx dy dz x_mid y_mid z_mid

/-- `determine_f_lambda_1_portions_3d` from the source: `[2, ..., deg-1]`. -/
def determine_f_lambda_1_portions_3d (deg : ℕ) : List ℕ :=
  if deg < 2 then [] else List.range' 2 (deg - 2)

/-- The 12 face terms of `f_lambda_1_3d_pieces` for a given `(j, k)` split; the
source writes the `current_deg = 2` case (with `j = k = 0`) and the general
loop body with identical term shapes. -/
def f_lambda_1_3d_jk (j k : ℕ) (dx dy dz : Expr × Expr)
    (x_mid y_mid z_mid : Expr) : List Vec3 :=
  [(Expr.mul (Expr.mul (Expr.mul (Expr.mul (leg j x_mid) (leg k y_mid)) dz.1) dy.1) dy.2,
    Expr.const 0, Expr.const 0),
   (Expr.mul (Expr.mul (Expr.mul (Expr.mul (leg j x_mid) (leg k y_mid)) dz.2) dy.1) dy.2,
    Expr.const 0, Expr.const 0),
   (Expr.mul (Expr.mul (Expr.mul (Expr.mul (leg j x_mid) (leg k z_mid)) dy.1) dz.1) dz.2,
    Expr.const 0, Expr.const 0),
   (Expr.mul (Expr.mul (Expr.mul (Expr.mul (leg j x_mid) (leg k z_mid)) dy.2) dz.1) dz.2,
    Expr.const 0, Expr.const 0),
   (Expr.const 0,
    Expr.mul (Expr.mul (Expr.mul (Expr.mul (leg j y_mid) (leg k x_mid)) dz.1) dx.1) dx.2,
    Expr.const 0),
   (Expr.const 0,
    Expr.mul (Expr.mul (Expr.mul (Expr.mul (leg j y_mid) (leg k x_mid)) dz.2) dx.1) dx.2,
    Expr.const 0),
   (Expr.const 0,
    Expr.mul (Expr.mul (Expr.mul (Expr.mul (leg j y_mid) (leg k z_mid)) dx.1) dz.1) dz.2,
    Expr.const 0),
   (Expr.const 0,
    Expr.mul (Expr.mul (Expr.mul (Expr.mul (leg j y_mid) (leg k z_mid)) dx.2) dz.1) dz.2,
    Expr.const 0),
   (Expr.const 0, Expr.const 0,
    Expr.mul (Expr.mul (Expr.mul (Expr.mul (leg j z_mid) (leg k y_mid)) dy.1) dx.1) dx.2),
   (Expr.const 0, Expr.const 0,
    Expr.mul (Expr.mul (Expr.mul (Expr.mul (leg j z_mid) (leg k y_mid)) dy.2) dx.1) dx.2),
   (Expr.const 0, Expr.const 0,
    Expr.mul (Expr.mul (Expr.mul (Expr.mul (leg j z_mid) (leg k x_mid)) dx.1) dy.1) dy.2),
   (Expr.const 0, Expr.const 0,
    Expr.mul (Expr.mul (Expr.mul (Expr.mul (leg j z_mid) (leg k x_mid)) dx.2) dy.1) dy.2)]

/-- `f_lambda_1_3d_pieces` from the source. -/
def f_lambda_1_3d_pieces (current_deg : ℕ) (dx dy dz : Expr × Expr)
    (x_mid y_mid z_mid : Expr) : List Vec3 :=
  if current_deg = 2 then f_lambda_1_3d_jk 0 0 dx dy dz x_mid y_mid z_mid
  else
    (List.range (current_deg - 2 + 1)).flatMap fun j =>
      f_lambda_1_3d_jk j (current_deg - 2 - j) dx dy dz x_mid y_mid z_mid

/-- `f_lambda_1_3d_tilde` from the source: 12 fixed terms plus, for
`j ∈ [1, max_deg-1)` and `k ∈ {0, 1}`, three axis-coupled terms. -/
def f_lambda_1_3d_tilde (max_deg : ℕ) (dx dy dz : Expr × Expr)
    (x_mid y_mid z_mid : Expr) : List Vec3 :=
  [(Expr.mul (Expr.mul (Expr.mul (leg (max_deg - 2) y_mid) dz.1) dy.1) dy.2,
    Expr.const 0, Expr.const 0),
   (Expr.mul (Expr.mul (Expr.mul (leg (max_deg - 2) y_mid) dz.2) dy.1) dy.2,
    Expr.const 0, Expr.const 0),
   (Expr.mul (Expr.mul (Expr.mul (leg (max_deg - 2) z_mid) dy.1) dz.1) dz.2,
    Expr.const 0, Expr.const 0),
   (Expr.mul (Expr.mul (Expr.mul (leg (max_deg - 2) z_mid) dy.2) dz.1) dz.2,
    Expr.const 0, Expr.const 0),
   (Expr.const 0, Expr.mul (Expr.mul (Expr.mul (leg (max_deg - 2) x_mid) dz.1) dx.1) dx.2,
    Expr.const 0),
   (Expr.const 0, Expr.mul (Expr.mul (Expr.mul (leg (max_deg - 2) x_mid) dz.2) dx.1) dx.2,
    Expr.const 0),
   (Expr.const 0, Expr.mul (Expr.mul (Expr.mul (leg (max_deg - 2) z_mid) dx.1) dz.1) dz.2,
    Expr.const 0),
   (Expr.const 0, Expr.mul (Expr.mul (Expr.mul (leg (max_deg - 2) z_mid) dx.2) dz.1) dz.2,
    Expr.const 0),
   (Expr.const 0, Expr.const 0,
    Expr.mul (Expr.mul (Expr.mul (leg (max_deg - 2) x_mid) dy.1) dx.1) dx.2),
   (Expr.const 0, Expr.const 0,
    Expr.mul (Expr.mul (Expr.mul (leg (max_deg - 2) x_mid) dy.2) dx.1) dx.2),
   (Expr.const 0, Expr.const 0,
    Expr.mul (Expr.mul (Expr.mul (leg (max_deg - 2) y_mid) dx.1) dy.1) dy.2),
   (Expr.const 0, Expr.const 0,
    Expr.mul (Expr.mul (Expr.mul (leg (max_deg - 2) y_mid) dx.2) dy.1) dy.2)] ++
  ((List.range' 1 (max_deg - 1 - 1)).flatMap fun j =>
    (List.range 2).flatMap fun k =>
      let dzk := if k = 0 then dz.1 else dz.2
      let dyk := if k = 0 then dy.1 else dy.2
      let dxk := if k = 0 then dx.1 else dx.2
      [(Expr.mul (Expr.mul (Expr.mul (Expr.mul (leg j x_mid)
          (leg (max_deg - j - 2) y_mid)) dzk) dy.1) dy.2,
        Expr.mul (Expr.mul (Expr.mul (Expr.mul (Expr.neg (leg (j - 1) x_mid))
          (leg (max_deg - j - 1) y_mid)) dzk) dx.1) dx.2,
        Expr.const 0),
       (Expr.mul (Expr.mul (Expr.mul (Expr.mul (leg j x_mid)
          (leg (max_deg - j - 2) z_mid)) dyk) dz.1) dz.2,
        Expr.const 0,
        Expr.mul (Expr.mul (Expr.mul (Expr.mul (Expr.neg (leg (j - 1) x_mid))
          (leg (max_deg - j - 1) z_mid)) dyk) dx.1) dx.2),
       (Expr.const 0,
        Expr.mul (Expr.mul (Expr.mul (Expr.mul (leg j y_mid)
          (leg (max_deg - j - 2) z_mid)) dxk) dz.1) dz.2,
        Expr.mul (Expr.mul (Expr.mul (Expr.mul (Expr.neg (leg (j - 1) y_mid))
          (leg (max_deg - j - 1) z_mid)) dxk) dy.1) dy.2)])

/-- `f_lambda_1_3d_trim` from the source. -/
def f_lambda_1_3d_trim (deg : ℕ) (dx dy dz : Expr × Expr)
    (x_mid y_mid z_mid : Expr) : List Vec3 :=
  (determine_f_lambda_1_portions_3d deg).flatMap fun i =>
    f_lambda_1_3d_pieces i dx dy dz x_mid y_mid z_mid

/-- `trimmed_f_lambda_3d` from the source. -/
def trimmed_f_lambda_3d (deg : ℕ) (dx dy dz : Expr × Expr)
    (x_mid y_mid z_mid : Expr) : List Vec3 :=
  f_lambda_1_3d_trim deg dx dy dz x_mid y_mid z_mid ++
    f_lambda_1_3d_tilde deg dx dy dz x_mid y_mid z_mid

/-- `determine_I_lambda_1_portions_3d` from the source: a triple nested loop
generating all `(x, y, z)` with `x + y + z ≤ deg - 4`, then filtering to those
with `x + y + z = deg - 4` (preserving the nested-loop order). -/
def determine_I_lambda_1_portions_3d (deg : ℕ) : List (ℕ × ℕ × ℕ) :=
  if deg < 4 then []
  else
    let degs := (List.range (deg - 3)).flatMap fun a =>
      (List.range (deg - 3 - a)).flatMap fun b =>
        (List.range (deg - 3 - a - b)).map fun c => (a, b, c)
    degs.filter fun t => t.1 + t.2.1 + t.2.2 = deg - 4

/-- `I_lambda_1_3d` from the source: for each enumerated triple, three vector
terms.  The third (z-axis) term's blending product is transcribed exactly as
written in the source: `dy[0] * dy[1] * dy[0] * dy[1]`. -/
def I_lambda_1_3d (deg : ℕ) (dx dy dz : Expr × Expr)
    (x_mid y_mid z_mid : Expr) : List Vec3 :=
  (determine_I_lambda_1_portions_3d deg).flatMap fun Degs =>
    [(Expr.mul (Expr.mul (Expr.mul (Expr.mul (Expr.mul (Expr.mul (leg Degs.1 x_mid)
        (leg Degs.2.1 y_mid)) (leg Degs.2.2 z_mid)) dy.1) dy.2) dz.1) dz.2,
      Expr.const 0, Expr.const 0),
     (Expr.const 0,
      Expr.mul (Expr.mul (Expr.mul (Expr.mul (Expr.mul (Expr.mul (leg Degs.1 x_mid)
        (leg Degs.2.1 y_mid)) (leg Degs.2.2 z_mid)) dx.1) dx.2) dz.1) dz.2,
      Expr.const 0),
     (Expr.const 0, Expr.const 0,
      Expr.mul (Expr.mul (Expr.mul (Expr.mul (Expr.mul (Expr.mul (leg Degs.1 x_mid)
        (leg Degs.2.1 y_mid)) (leg Degs.2.2 z_mid)) dy.1) dy.2) dy.1) dy.2)]

/-- `I_lambda_1_tilde_3d` from the source: six fixed terms plus, for
`j ∈ [1, deg-3)`, two coupled terms (a third when `deg > 5`). -/
def I_lambda_1_tilde_3d (deg : ℕ) (dx dy dz : Expr × Expr)
    (x_mid y_mid z_mid : Expr) : List Vec3 :=
  [(Expr.mul (Expr.mul (Expr.mul (Expr.mul (leg (deg - 4) y_mid) dy.1) dy.2) dz.1) dz.2,
    Expr.const 0, Expr.const 0),
   (Expr.mul (Expr.mul (Expr.mul (Expr.mul (leg (deg - 4) z_mid) dy.1) dy.2) dz.1) dz.2,
    Expr.const 0, Expr.const 0),
   (Expr.const 0,
    Expr.mul (Expr.mul (Expr.mul (Expr.mul (leg (deg - 4) x_mid) dx.1) dx.2) dz.1) dz.2,
    Expr.const 0),
   (Expr.const 0,
    Expr.mul (Expr.mul (Expr.mul (Expr.mul (leg (deg - 4) z_mid) dx.1) dx.2) dz.1) dz.2,
    Expr.const 0),
   (Expr.const 0, Expr.const 0,
    Expr.mul (Expr.mul (Expr.mul (Expr.mul (leg (deg - 4) x_mid) dx.1) dx.2) dy.1) dy.2),
   (Expr.const 0, Expr.const 0,
    Expr.mul (Expr.mul (Expr.mul (Expr.mul (leg (deg - 4) y_mid) dx.1) dx.2) dy.1) dy.2)] ++
  ((List.range' 1 (deg - 3 - 1)).flatMap fun j =>
    [(Expr.mul (Expr.mul (Expr.mul (Expr.mul (Expr.mul (leg j x_mid)
        (leg (deg - j - 4) y_mid)) dy.1) dy.2) dz.1) dz.2,
      Expr.mul (Expr.mul (Expr.mul (Expr.mul (Expr.mul (Expr.neg (leg (j - 1) x_mid))
        (leg (deg - j - 3) y_mid)) dx.1) dx.2) dz.1) dz.2,
      Expr.const 0),
     (Expr.mul (Expr.mul (Expr.mul (Expr.mul (Expr.mul (leg j x_mid)
        (leg (deg - j - 4) z_mid)) dy.1) dy.2) dz.1) dz.2,
      Expr.const 0,
      Expr.mul (Expr.mul (Expr.mul (Expr.mul (Expr.mul (Expr.neg (leg (j - 1) x_mid))
        (leg (deg - j - 3) z_mid)) dx.1) dx.2) dy.1) dy.2)] ++
    (if 5 < deg then
      [(Expr.const 0,
        Expr.mul (Expr.mul (Expr.mul (Expr.mul (Expr.mul (leg j y_mid)
          (leg (deg - j - 4) z_mid)) dx.1) dx.2) dz.1) dz.2,
        Expr.mul (Expr.mul (Expr.mul (Expr.mul (Expr.mul (Expr.neg (leg (j - 1) y_mid))
          (leg (deg - j - 3) z_mid)) dx.1) dx.2) dy.1) dy.2)]
     else []))

/-! ## Topology/dimension allocator (`TrimmedSerendipity.__init__`, lines 56-103) -/

/-- Sequential allocation of consecutive index ranges: the embedding of the
`cur` counter pattern `entity_ids[..][j] = list(range(cur, cur + size)); cur += size`.
Returns the per-entity lists and the final counter. -/
def allocSeq : ℕ → List ℕ → List (List ℕ) × ℕ
  | cur, [] => ([], cur)
  | cur, s :: rest =>
      let r := allocSeq (cur + s) rest
      (List.range' cur s :: r.1, r.2)

/-- The entity-DOF map built for a 2D (quadrilateral) flattened cell: 4 vertices
(empty lists), 4 edges, 1 face.  The face list is assigned only for
`degree ≥ 2` (the source's final unguarded `cur` bump is dead code in 2D and is
not part of the map). -/
structure EntityIds2d where
  vertexIds : List (List ℕ)
  edgeIds : List (List ℕ)
  faceIds : List ℕ
deriving DecidableEq, Repr

/-- `TrimmedSerendipity.__init__`, 2D branch of the DOF allocation. -/
def entity_ids_2d (degree : ℕ) : EntityIds2d :=
  let edges := allocSeq 0 (List.replicate 4 degree)
  let face :=
    if 2 ≤ degree then
      List.range' edges.2 (2 * triangular_number ((degree : ℤ) - 2) + degree).toNat
    else []
  { vertexIds := List.replicate 4 [], edgeIds := edges.1, faceIds := face }

/-- Interior DOF count for 3D (`entity_ids[3][0]`, lines 92-103 of the source). -/
def interior_size_3d (degree : ℕ) : ℕ :=
  if 4 ≤ degree then
    if degree = 4 then 6
    else if degree = 5 then 11
    else
      let interior_ids :=
        (List.range (degree - 4)).foldl (fun acc i => acc + 3 * choose_ijk_total i) 0
      6 + (degree - 4) * 3 + interior_ids
  else 0

/-- The entity-DOF map built for a 3D (hexahedral) flattened cell: 8 vertices,
12 edges, 6 faces, 1 interior.  `total` records the total number of allocated
DOF indices (the counter value after the interior range). -/
structure EntityIds3d where
  vertexIds : List (List ℕ)
  edgeIds : List (List ℕ)
  faceIds : List (List ℕ)
  interiorIds : List ℕ
  total : ℕ
deriving DecidableEq, Repr

/-- `TrimmedSerendipity.__init__`, 3D branch of the DOF allocation. -/
def entity_ids_3d (degree : ℕ) : EntityIds3d :=
  let edges := allocSeq 0 (List.replicate 12 degree)
  let faces :=
    if 2 ≤ degree then
      if degree < 4 then
        allocSeq edges.2
          (List.replicate 6 (2 * triangular_number ((degree : ℤ) - 2) + degree).toNat)
      else allocSeq edges.2 (List.replicate 6 (3 * degree - 4))
    else (List.replicate 6 [], edges.2)
  { vertexIds := List.replicate 8 [], edgeIds := edges.1, faceIds := faces.1,
    interiorIds := List.range' faces.2 (interior_size_3d degree),
    total := faces.2 + interior_size_3d degree }

/-- All DOF lists of the 2D entity map, concatenated in entity order. -/
def joinIds2d (e : EntityIds2d) : List ℕ :=
  e.vertexIds.flatten ++ e.edgeIds.flatten ++ e.faceIds

/-- All DOF lists of the 3D entity map, concatenated in entity order. -/
def joinIds3d (e : EntityIds3d) : List ℕ :=
  e.vertexIds.flatten ++ e.edgeIds.flatten ++ e.faceIds.flatten ++ e.interiorIds

/-! ## Elements (`TrimmedSerendipityEdge`, `TrimmedSerendipityFace`) -/

/-- The Python exceptions that `Sminus.py` can raise: plain `Exception` (invalid
configuration at construction), `NotImplementedError` (unsupported queries), and
the `NameError`/`UnboundLocalError` family (reading an unassigned local). -/
inductive PyError where
  | exception : String → PyError
  | notImplementedError : String → PyError
  | nameError : String → PyError
deriving DecidableEq, Repr

/-- The order-0 basis stored by an element: a sympy array of shape `(n, 2)` or
`(n, 3)`. -/
inductive TSBasis where
  | twoD : List Vec2 → TSBasis
  | threeD : List Vec3 → TSBasis
deriving DecidableEq, Repr

/-- `len` of the stored sympy array: the total number of scalar entries
(`sympy.Array.__len__` returns the loop size `n * 2` or `n * 3`). -/
def TSBasis.scalarLen : TSBasis → ℕ
  | .twoD l => 2 * l.length
  | .threeD l => 3 * l.length

/-- A constructed trimmed serendipity element. -/
structure TSElement where
  degree : ℕ
  dim : ℕ
  basis : TSBasis
  mapping : String
deriving DecidableEq, Repr

/-- `TrimmedSerendipity.space_dimension`: `int(len(self.basis[(0, 0)]) / 2)`. -/
def TSElement.space_dimension (el : TSElement) : ℕ := el.basis.scalarLen / 2

/-- The pair `dx` computed by both element constructors from the first and last
vertex of the flattened cell (the denominator is a Python number). -/
def blend (axis : Fin 3) (v0 vN : Fin 3 → ℚ) : Expr × Expr :=
  (Expr.div (Expr.sub (Expr.const (vN axis)) (Expr.var axis))
     (Expr.const (vN axis - v0 axis)),
   Expr.div (Expr.sub (Expr.var axis) (Expr.const (v0 axis)))
     (Expr.const (vN axis - v0 axis)))

/-- The midpoint substitute `2*x - (verts[-1][axis] + verts[0][axis])`. -/
def midExpr (axis : Fin 3) (v0 vN : Fin 3 → ℚ) : Expr :=
  Expr.sub (Expr.mul (Expr.const 2) (Expr.var axis)) (Expr.const (vN axis + v0 axis))

/-- `TrimmedSerendipityEdge.__init__`: degree and dimension checks, blending
factors from the vertices, then the basis `EL + FL` (2D) or `EL + FL + IL`
(3D).  `v0`/`vN` are the first and last vertex of the flattened cell; in 2D the
z-axis entries are never read (`dz = None` after the `IndexError`). -/
def TrimmedSerendipityEdge_init (dim : ℕ) (degree : ℤ) (v0 vN : Fin 3 → ℚ) :
    Except PyError TSElement :=
  if degree < 1 then
    .error (.exception "Trimmed Serendipity_k edge elements only valid for k >= 1")
  else if dim ≠ 2 ∧ dim ≠ 3 then
    .error (.exception "Trimmed Serendipity_k edge elements only valid for dimensions 2 and 3")
  else
    let d := degree.toNat
    let dx := blend 0 v0 vN
    let dy := blend 1 v0 vN
    let x_mid := midExpr 0 v0 vN
    let y_mid := midExpr 1 v0 vN
    if dim = 2 then
      let EL := e_lambda_1_2d_part_one d dx dy x_mid y_mid
      let FL := if 2 ≤ d then trimmed_f_lambda_2d d dx dy x_mid y_mid else []
      .ok { degree := d, dim := 2, basis := .twoD (EL ++ FL),
            mapping := "covariant piola" }
    else
      let dz := blend 2 v0 vN
      let z_mid := midExpr 2 v0 vN
      let EL := e_lambda_1_3d_trimmed d dx dy dz x_mid y_mid z_mid
      let FL := if 2 ≤ d then trimmed_f_lambda_3d d dx dy dz x_mid y_mid z_mid else []
      let IL := if 4 ≤ d then
          I_lambda_1_3d d dx dy dz x_mid y_mid z_mid ++
            I_lambda_1_tilde_3d d dx dy dz x_mid y_mid z_mid
        else []
      .ok { degree := d, dim := 3, basis := .threeD (EL ++ FL ++ IL),
            mapping := "covariant piola" }

/-- `TrimmedSerendipityFace.__init__`.  The local `IL` is assigned only inside
the `if dim == 3` branch, and `bdmcf_list = EL + FL + IL` is evaluated
unconditionally: on a 2D cell the constructor reads the unassigned local and
raises (`UnboundLocalError`, a `NameError`).  In 3D, `[[-a[1], a[0]] for a in
bdmcf_list]` keeps only the rotated first two components of each 3-vector. -/
def TrimmedSerendipityFace_init (dim : ℕ) (degree : ℤ) (v0 vN : Fin 3 → ℚ) :
    Except PyError TSElement :=
  if degree < 1 then
    .error (.exception "Trimmed serendipity face elements only valid for k >= 1")
  else if dim ≠ 2 ∧ dim ≠ 3 then
    .error (.exception "Trimmed serendipity face elements only valid for dimensions 2 and 3")
  else
    let d := degree.toNat
    let dx := blend 0 v0 vN
    let dy := blend 1 v0 vN
    let x_mid := midExpr 0 v0 vN
    let y_mid := midExpr 1 v0 vN
    if dim = 2 then
      -- EL = e_lambda_1_2d_part_one .., FL = .. are computed, but
      -- `EL + FL + IL` reads the never-assigned local IL.
      .error (.nameError "local variable 'IL' referenced before assignment")
    else
      let dz := blend 2 v0 vN
      let z_mid := midExpr 2 v0 vN
      let EL := e_lambda_1_3d_trimmed d dx dy dz x_mid y_mid z_mid
      let FL := if 2 ≤ d then trimmed_f_lambda_3d d dx dy dz x_mid y_mid z_mid else []
      let IL := if 4 ≤ d then
          I_lambda_1_3d d dx dy dz x_mid y_mid z_mid ++
            I_lambda_1_tilde_3d d dx dy dz x_mid y_mid z_mid
        else []
      let bdmcf := EL ++ FL ++ IL
      .ok { degree := d, dim := 3,
            basis := .twoD (bdmcf.map fun a => (Expr.neg a.2.1, a.1)),
            mapping := "contravariant piola" }

/-! ## Unsupported operations (lines 136-143, 188-192 of the source) -/

/-- `TrimmedSerendipity.get_nodal_basis`. -/
def TrimmedSerendipity.get_nodal_basis (_ : TSElement) : Except PyError Unit :=
  .error (.notImplementedError "get_nodal_basis not implemented for trimmed serendipity")

/-- `TrimmedSerendipity.get_dual_set`. -/
def TrimmedSerendipity.get_dual_set (_ : TSElement) : Except PyError Unit :=
  .error (.notImplementedError "get_dual_set is not implemented for trimmed serendipity")

/-- `TrimmedSerendipity.get_coeffs`. -/
def TrimmedSerendipity.get_coeffs (_ : TSElement) : Except PyError Unit :=
  .error (.notImplementedError "get_coeffs not implemented for trimmed serendipity")

/-- `TrimmedSerendipity.dmats` (bare `raise NotImplementedError`). -/
def TrimmedSerendipity.dmats (_ : TSElement) : Except PyError Unit :=
  .error (.notImplementedError "")

/-- `TrimmedSerendipity.get_num_members` (bare `raise NotImplementedError`). -/
def TrimmedSerendipity.get_num_members (_ : TSElement) (_ : ℕ) : Except PyError Unit :=
  .error (.notImplementedError "")

/-! ## Tabulation engine (`TrimmedSerendipity.tabulate`, lines 145-173) -/

/-- `diff(e, (x, α.1), (y, α.2))`: differentiate `α.1` times with respect to the
first variable and `α.2` times with respect to the second, exactly the
multi-index pairs that `zip(variables, alpha)` produces (`alpha` has length 2
because `mis(2, o)` is used). -/
def diffXY (α : ℕ × ℕ) (e : Expr) : Expr :=
  (fun t => Expr.ediff t 1)^[α.2] ((fun t => Expr.ediff t 0)^[α.1] e)

/-- Entrywise symbolic differentiation of the stored basis array. -/
def TSBasis.diffA : TSBasis → ℕ × ℕ → TSBasis
  | .twoD l, α => .twoD (l.map fun t => (diffXY α t.1, diffXY α t.2))
  | .threeD l, α => .threeD (l.map fun t => (diffXY α t.1, diffXY α t.2.1, diffXY α t.2.2))

/-- The numeric table built from a differentiated basis: for each basis function
`j` and each point `i`, the pair written into `T[j, 0, i]` and `T[j, 1, i]`.
Only columns `0` and `1` of the array are read (`polynomials[:, 0]`,
`polynomials[:, 1]`), and the substitution fixes only the first two variables. -/
def TSBasis.evalTable : TSBasis → List (ℚ × ℚ) → List (List (Expr × Expr))
  | .twoD l, pts => l.map fun t => pts.map fun p => (t.1.subXY p.1 p.2, t.2.subXY p.1 p.2)
  | .threeD l, pts =>
      l.map fun t => pts.map fun p => (t.1.subXY p.1 p.2, t.2.1.subXY p.1 p.2)

/-- `mis(2, o)`: the multi-indices of length 2 and total order `o`. -/
def mis2 (o : ℕ) : List (ℕ × ℕ) := (List.range (o + 1)).map fun a => (a, o - a)

/-- All multi-indices visited by `tabulate(order, ...)`: total orders `0..order`. -/
def allAlphas (order : ℕ) : List (ℕ × ℕ) := (List.range (order + 1)).flatMap mis2

/-- The derivative cache `self.basis`: a dictionary keyed by multi-index. -/
abbrev DiffCache := List ((ℕ × ℕ) × TSBasis)

/-- Dictionary lookup in the derivative cache (`self.basis[alpha]`, with the
`KeyError` arm of the source's `try` modelled by `none`). -/
def clookup : DiffCache → ℕ × ℕ → Option TSBasis
  | [], _ => none
  | (k, v) :: rest, α => if k = α then some v else clookup rest α

/-- Result of one `tabulate` call: the returned `phivals` dictionary, the
updated derivative cache, and the multi-indices whose derivative was freshly
computed during the call (empty lookup misses). -/
structure TabResult where
  phivals : List ((ℕ × ℕ) × List (List (Expr × Expr)))
  cache : DiffCache
  computed : List (ℕ × ℕ)
deriving Repr

/-- The loop body of `tabulate` over the multi-index list: look the multi-index
up in the cache; on a miss, differentiate the order-0 basis and insert; then
evaluate at all points. -/
def tabRun (base : TSBasis) (pts : List (ℚ × ℚ)) :
    List (ℕ × ℕ) → DiffCache → TabResult
  | [], c => ⟨[], c, []⟩
  | α :: rest, c =>
      match clookup c α with
      | some polys =>
          let r := tabRun base pts rest c
          ⟨(α, polys.evalTable pts) :: r.phivals, r.cache, r.computed⟩
      | none =>
          let polys := base.diffA α
          let r := tabRun base pts rest ((α, polys) :: c)
          ⟨(α, polys.evalTable pts) :: r.phivals, r.cache, α :: r.computed⟩

/-- `TrimmedSerendipity.tabulate(order, points, entity)`: the points are first
pushed through the entity transform, then every multi-index of total order
`0..order` is processed against the instance's derivative cache. -/
def tabulate (base : TSBasis) (c : DiffCache) (transform : ℚ × ℚ → ℚ × ℚ)
    (order : ℕ) (points : List (ℚ × ℚ)) : TabResult :=
  tabRun base (points.map transform) (allAlphas order) c

/-- Cache coherence: every cached entry is the derivative of the order-0 basis
at its key.  The constructor state `{(0, 0): basis}` is coherent, and `tabulate`
only inserts derivatives of the order-0 entry, so every reachable instance
state is coherent. -/
def Coherent (base : TSBasis) (c : DiffCache) : Prop :=
  ∀ α v, clookup c α = some v → v = base.diffA α

/-- Lookup in the returned `phivals` dictionary. -/
def plookup : List ((ℕ × ℕ) × List (List (Expr × Expr))) → ℕ × ℕ →
    Option (List (List (Expr × Expr)))
  | [], _ => none
  | (k, v) :: rest, α => if k = α then some v else plookup rest α

/-! ## Supporting definitions for the theorems -/

/-- Recursive form of the triangular numbers (proof vehicle only). -/
def natTri : ℕ → ℕ
  | 0 => 0
  | m + 1 => natTri m + (m + 1)

/-- The reference-cell corner `(-1, -1, -1)` (first vertex of `[-1, 1]^dim`). -/
def cubeLo : Fin 3 → ℚ := fun _ => -1

/-- The reference-cell corner `(1, 1, 1)` (last vertex of `[-1, 1]^dim`). -/
def cubeHi : Fin 3 → ℚ := fun _ => 1

/-- The element value produced by `TrimmedSerendipityEdge.__init__` on a 2D
cell: the basis is `EL + FL` with `EL = e_lambda_1_2d_part_one` and `FL` the
trimmed face block (empty for degree 1). -/
def edge2dElement (d : ℕ) (v0 vN : Fin 3 → ℚ) : TSElement :=
  { degree := d, dim := 2,
    basis := .twoD (e_lambda_1_2d_part_one d (blend 0 v0 vN) (blend 1 v0 vN)
        (midExpr 0 v0 vN) (midExpr 1 v0 vN) ++
      (if 2 ≤ d then trimmed_f_lambda_2d d (blend 0 v0 vN) (blend 1 v0 vN)
        (midExpr 0 v0 vN) (midExpr 1 v0 vN) else [])),
    mapping := "covariant piola" }

/-- `dx` on the reference cell `[-1, 1]^3`. -/
def refDx : Expr × Expr := blend 0 cubeLo cubeHi

/-- `dy` on the reference cell `[-1, 1]^3`. -/
def refDy : Expr × Expr := blend 1 cubeLo cubeHi

/-- `dz` on the reference cell `[-1, 1]^3`. -/
def refDz : Expr × Expr := blend 2 cubeLo cubeHi

/-- `x_mid` on the reference cell `[-1, 1]^3`. -/
def refXm : Expr := midExpr 0 cubeLo cubeHi

/-- `y_mid` on the reference cell `[-1, 1]^3`. -/
def refYm : Expr := midExpr 1 cubeLo cubeHi

/-- `z_mid` on the reference cell `[-1, 1]^3`. -/
def refZm : Expr := midExpr 2 cubeLo cubeHi

/-- The point `(1, 0, 0)`. -/
def pt100 : Fin 3 → ℚ := fun i => if i = 0 then 1 else 0

/-- The z-axis scaling the claim states for the interior generator
(`P_a(x_mid) P_b(y_mid) P_c(z_mid) * dx[0]*dx[1]*dy[0]*dy[1]` at
`(a,b,c) = (0,0,0)`); transcribed from the claim for comparison with the z-axis
scalar the code emits. -/
def zAxisClaimed : Expr :=
  Expr.mul (Expr.mul (Expr.mul (Expr.mul (Expr.mul (Expr.mul (leg 0 refXm)
    (leg 0 refYm)) (leg 0 refZm)) refDx.1) refDx.2) refDy.1) refDy.2

/-- The z-axis scalar the code emits for the triple `(0,0,0)`
(`... * dy[0]*dy[1]*dy[0]*dy[1]`, transcribing line 428 of the source). -/
def zAxisEmitted : Expr :=
  Expr.mul (Expr.mul (Expr.mul (Expr.mul (Expr.mul (Expr.mul (leg 0 refXm)
    (leg 0 refYm)) (leg 0 refZm)) refDy.1) refDy.2) refDy.1) refDy.2

/-- The point `(1/2, 1/2, 1/2)`. -/
def ptHalf : Fin 3 → ℚ := fun _ => 1 / 2

/-- Discriminator for the not-implemented signal (`isinstance(e,
NotImplementedError)` in Python terms). -/
def PyError.isNotImplemented : PyError → Bool
  | .notImplementedError _ => true
  | _ => false

/-- Order-0 basis of a one-function element used to witness C7 and C10. -/
def wBase : TSBasis := TSBasis.twoD [(Expr.var 0, Expr.var 1)]

/-- Constructor-state derivative cache for `wBase`. -/
def wCache : DiffCache := [((0, 0), wBase)]

/-- A one-entry 3D basis whose first two components contain `z`. -/
def wTriple : List Vec3 := [(Expr.var 2, Expr.var 2, Expr.var 0)]

/-- Same first two components as `wTriple`, different third component. -/
def wTriple' : List Vec3 := [(Expr.var 2, Expr.var 2, Expr.var 1)]

/-! ## Tabulation lemmas -/

theorem diffXY_zero (e : Expr) : diffXY (0, 0) e = e := rfl

theorem TSBasis.diffA_zero (b : TSBasis) : b.diffA (0, 0) = b := by
  cases b <;> simp [TSBasis.diffA, diffXY]

/-- The constructor state `self.basis = {(0, 0): basis}` is coherent. -/
theorem Coherent_init (b : TSBasis) : Coherent b [((0, 0), b)] := by
  intro α v h
  by_cases hα : ((0, 0) : ℕ × ℕ) = α
  · have hsome : clookup [((0, 0), b)] α = some b := by
      simp only [clookup, if_pos hα]
    rw [hsome, Option.some.injEq] at h
    rw [← h, ← hα, TSBasis.diffA_zero]
  · have hnone : clookup [((0, 0), b)] α = none := by
      simp only [clookup, if_neg hα]
    rw [hnone] at h
    cases h

/-- The tabulation loop, run from any coherent cache, returns the canonical
table for every visited multi-index, keeps the cache coherent, and computes a
derivative only for multi-indices absent from the incoming cache. -/
theorem tabRun_spec (base : TSBasis) (pts : List (ℚ × ℚ)) :
    ∀ (as : List (ℕ × ℕ)) (c : DiffCache), Coherent base c →
      (tabRun base pts as c).phivals
          = as.map (fun α => (α, (base.diffA α).evalTable pts))
        ∧ Coherent base (tabRun base pts as c).cache
        ∧ ∀ α, α ∈ (tabRun base pts as c).computed → clookup c α = none := by
  intro as
  induction as with
  | nil =>
      intro c hc
      exact ⟨rfl, hc, by intro α h; cases h⟩
  | cons α rest ih =>
      intro c hc
      cases hl : clookup c α with
      | some polys =>
          have hpol : polys = base.diffA α := hc α polys hl
          obtain ⟨h1, h2, h3⟩ := ih c hc
          refine ⟨?_, ?_, ?_⟩
          · simp only [tabRun, hl, List.map_cons]
            exact congrArg₂ List.cons (by rw [hpol]) h1
          · simpa only [tabRun, hl] using h2
          · intro β hβ
            simp only [tabRun, hl] at hβ
            exact h3 β hβ
      | none =>
          have hc' : Coherent base ((α, base.diffA α) :: c) := by
            intro β v hv
            simp only [clookup] at hv
            by_cases hβ : α = β
            · rw [if_pos hβ] at hv
              exact (Option.some.injEq _ _ ▸ hv).symm ▸ by rw [← hβ]
            · rw [if_neg hβ] at hv
              exact hc β v hv
          obtain ⟨h1, h2, h3⟩ := ih ((α, base.diffA α) :: c) hc'
          refine ⟨?_, ?_, ?_⟩
          · simp only [tabRun, hl, List.map_cons]
            exact congrArg₂ List.cons rfl h1
          · simpa only [tabRun, hl] using h2
          · intro β hβ
            simp only [tabRun, hl, List.mem_cons] at hβ
            rcases hβ with hβ | hβ
            · rw [hβ]; exact hl
            · have hnone := h3 β hβ
              simp only [clookup] at hnone
              by_cases hβα : α = β
              · rw [if_pos hβα] at hnone; cases hnone
              · rwa [if_neg hβα] at hnone

theorem mem_mis2 (o a b : ℕ) : (a, b) ∈ mis2 o ↔ a + b = o := by
  simp only [mis2, List.mem_map, List.mem_range, Prod.mk.injEq]
  constructor
  · rintro ⟨x, hx, rfl, rfl⟩; omega
  · intro h; exact ⟨a, by omega, rfl, by omega⟩

theorem mem_allAlphas (order a b : ℕ) : (a, b) ∈ allAlphas order ↔ a + b ≤ order := by
  simp only [allAlphas, List.mem_flatMap, List.mem_range]
  constructor
  · rintro ⟨o, ho, hm⟩
    have := (mem_mis2 o a b).1 hm
    omega
  · intro h
    exact ⟨a + b, by omega, (mem_mis2 _ a b).2 rfl⟩

theorem plookup_map (f : ℕ × ℕ → List (List (Expr × Expr))) :
    ∀ (as : List (ℕ × ℕ)) (α : ℕ × ℕ), α ∈ as →
      plookup (as.map fun β => (β, f β)) α = some (f α) := by
  intro as
  induction as with
  | nil => intro α h; cases h
  | cons β rest ih =>
      intro α hα
      simp only [List.map_cons, plookup]
      by_cases h : β = α
      · rw [if_pos h, h]
      · rw [if_neg h]
        rcases List.mem_cons.1 hα with h' | h'
        · exact absurd h'.symm h
        · exact ih α h'

theorem plookup_map_some (f : ℕ × ℕ → List (List (Expr × Expr))) :
    ∀ (as : List (ℕ × ℕ)) (α : ℕ × ℕ) (v : List (List (Expr × Expr))),
      plookup (as.map fun β => (β, f β)) α = some v → α ∈ as ∧ v = f α := by
  intro as
  induction as with
  | nil => intro α v h; cases h
  | cons β rest ih =>
      intro α v h
      simp only [List.map_cons, plookup] at h
      by_cases hβ : β = α
      · rw [if_pos hβ, Option.some.injEq] at h
        exact ⟨by rw [hβ]; exact List.mem_cons_self _ _, by rw [← h, hβ]⟩
      · rw [if_neg hβ] at h
        obtain ⟨hm, hv⟩ := ih α v h
        exact ⟨List.mem_cons_of_mem _ hm, hv⟩

/-! ## Counting lemmas -/

theorem two_natTri (m : ℕ) : 2 * natTri m = (m + 1) * m := by
  induction m with
  | zero => rfl
  | succ k ih =>
      simp only [natTri, Nat.mul_add, ih]
      ring

theorem triangular_number_natCast (m : ℕ) :
    triangular_number (m : ℤ) = (natTri m : ℤ) := by
  unfold triangular_number
  have h2 : (2 : ℤ) * (natTri m : ℤ) = ((m : ℤ) + 1) * m := by exact_mod_cast two_natTri m
  rw [← h2, Int.mul_ediv_cancel_left _ (by norm_num)]

/-- The 2D face DOF count `2 * triangular_number(degree - 2) + degree` as a
natural number, for `degree ≥ 2`. -/
theorem face_count_toNat (d : ℕ) (h : 2 ≤ d) :
    (2 * triangular_number ((d : ℤ) - 2) + d).toNat = 2 * natTri (d - 2) + d := by
  have hcast : (d : ℤ) - 2 = ((d - 2 : ℕ) : ℤ) := by omega
  rw [hcast, triangular_number_natCast]
  have : (2 * ((natTri (d - 2) : ℤ)) + (d : ℤ)) = ((2 * natTri (d - 2) + d : ℕ) : ℤ) := by
    push_cast; ring
  rw [this, Int.toNat_natCast]

theorem length_e_lambda_1_2d_part_one (d : ℕ) (dx dy : Expr × Expr) (xm ym : Expr) :
    (e_lambda_1_2d_part_one d dx dy xm ym).length = 4 * d := by
  simp only [e_lambda_1_2d_part_one, List.length_append, List.length_map, List.length_range]
  omega

theorem length_f_lambda_1_2d_pieces (c : ℕ) (h2 : 2 ≤ c) (dx dy : Expr × Expr)
    (xm ym : Expr) : (f_lambda_1_2d_pieces c dx dy xm ym).length = 2 * (c - 1) := by
  unfold f_lambda_1_2d_pieces
  by_cases hc : c = 2
  · rw [if_pos hc, hc]
    rfl
  · rw [if_neg hc, List.length_flatMap]
    have hmap : List.map
        (List.length ∘ fun j =>
          let k := c - 2 - j
          [(Expr.mul (Expr.mul (Expr.mul (leg j xm) (leg k ym)) dy.1) dy.2, Expr.const 0),
           (Expr.const 0, Expr.mul (Expr.mul (Expr.mul (leg j xm) (leg k ym)) dx.1) dx.2)])
        (List.range (c - 2 + 1))
        = List.map (fun _ => 2) (List.range (c - 2 + 1)) := by
      exact List.map_congr_left fun j _ => rfl
    rw [hmap, List.map_const', List.sum_replicate, List.length_range, smul_eq_mul]
    omega

theorem length_trim_aux (n : ℕ) (dx dy : Expr × Expr) (xm ym : Expr) :
    ((List.range' 2 n).flatMap fun i => f_lambda_1_2d_pieces i dx dy xm ym).length
      = 2 * natTri n := by
  induction n with
  | zero => rfl
  | succ k ih =>
      rw [List.range'_concat, List.flatMap_append, List.length_append, ih]
      simp only [List.flatMap_cons, List.flatMap_nil, List.append_nil]
      rw [length_f_lambda_1_2d_pieces _ (by omega)]
      simp only [natTri]
      omega

theorem length_f_lambda_1_2d_trim (d : ℕ) (dx dy : Expr × Expr) (xm ym : Expr) :
    (f_lambda_1_2d_trim d dx dy xm ym).length = 2 * natTri (d - 2) := by
  unfold f_lambda_1_2d_trim determine_f_lambda_portions_2d
  by_cases h : d < 2
  · rw [if_pos h]
    have : d - 2 = 0 := by omega
    rw [this]
    rfl
  · rw [if_neg h, length_trim_aux]

theorem length_f_lambda_1_2d_tilde (d : ℕ) (dx dy : Expr × Expr) (xm ym : Expr) :
    (f_lambda_1_2d_tilde d dx dy xm ym).length = 2 + (d - 1 - 1) := by
  simp only [f_lambda_1_2d_tilde, List.length_append, List.length_map, List.length_range']
  rfl

theorem length_trimmed_f_lambda_2d (d : ℕ) (h : 2 ≤ d) (dx dy : Expr × Expr)
    (xm ym : Expr) :
    (trimmed_f_lambda_2d d dx dy xm ym).length = 2 * natTri (d - 2) + d := by
  unfold trimmed_f_lambda_2d
  rw [List.length_append, length_f_lambda_1_2d_trim, length_f_lambda_1_2d_tilde]
  omega

/-! ## Allocator lemmas -/

theorem allocSeq_snd (sizes : List ℕ) : ∀ cur, (allocSeq cur sizes).2 = cur + sizes.sum := by
  induction sizes with
  | nil => intro cur; simp [allocSeq]
  | cons s rest ih =>
      intro cur
      simp only [allocSeq, ih, List.sum_cons]
      omega

theorem range'_append' (s a b : ℕ) :
    List.range' s a ++ List.range' (s + a) b = List.range' s (a + b) := by
  have h := List.range'_append s a b 1
  rw [Nat.one_mul] at h
  rw [h, Nat.add_comm b a]

theorem allocSeq_flatten (sizes : List ℕ) :
    ∀ cur, (allocSeq cur sizes).1.flatten = List.range' cur sizes.sum := by
  induction sizes with
  | nil => intro cur; simp [allocSeq]
  | cons s rest ih =>
      intro cur
      simp only [allocSeq, List.flatten_cons, ih, List.sum_cons]
      exact range'_append' cur s rest.sum

theorem sum_replicate_nat (n a : ℕ) : (List.replicate n a).sum = n * a := by
  rw [List.sum_replicate, smul_eq_mul]

theorem range'_zero_append (a b : ℕ) :
    List.range' 0 a ++ List.range' a b = List.range' 0 (a + b) := by
  have h := range'_append' 0 a b
  rwa [Nat.zero_add] at h

/-- The 2D entity-DOF lists, concatenated in entity order, are exactly
`[0, 4*degree + face_count)` in increasing order. -/
theorem joinIds2d_eq (d : ℕ) :
    joinIds2d (entity_ids_2d d)
      = List.range (4 * d + (if 2 ≤ d then 2 * natTri (d - 2) + d else 0)) := by
  unfold joinIds2d entity_ids_2d
  simp only
  rw [allocSeq_flatten, allocSeq_snd, sum_replicate_nat]
  have hverts : (List.replicate 4 ([] : List ℕ)).flatten = [] := rfl
  rw [hverts, List.nil_append, Nat.zero_add]
  by_cases h2 : 2 ≤ d
  · rw [if_pos h2, if_pos h2, face_count_toNat d h2, range'_zero_append,
      List.range_eq_range']
  · rw [if_neg h2, if_neg h2, List.append_nil, List.range_eq_range', Nat.add_zero]

/-- The 3D entity-DOF lists, concatenated in entity order, are exactly
`[0, total)` in increasing order. -/
theorem joinIds3d_eq (d : ℕ) :
    joinIds3d (entity_ids_3d d) = List.range (entity_ids_3d d).total := by
  unfold joinIds3d entity_ids_3d
  simp only
  have hverts : (List.replicate 8 ([] : List ℕ)).flatten = [] := rfl
  rw [hverts, List.nil_append]
  rw [allocSeq_flatten, allocSeq_snd, sum_replicate_nat, Nat.zero_add]
  by_cases h2 : 2 ≤ d
  · by_cases h4 : d < 4
    · rw [if_pos h2, if_pos h4]
      rw [allocSeq_flatten, allocSeq_snd, sum_replicate_nat]
      rw [range'_zero_append, range'_zero_append, List.range_eq_range']
    · rw [if_pos h2, if_neg h4]
      rw [allocSeq_flatten, allocSeq_snd, sum_replicate_nat]
      rw [range'_zero_append, range'_zero_append, List.range_eq_range']
  · rw [if_neg h2]
    have hfaces : (List.replicate 6 ([] : List ℕ)).flatten = [] := rfl
    rw [hfaces, List.append_nil, range'_zero_append, List.range_eq_range']

/-! ## The assembled 2D Edge element -/

theorem edge2d_init_ok (d : ℕ) (hd : 1 ≤ d) (v0 vN : Fin 3 → ℚ) :
    TrimmedSerendipityEdge_init 2 (d : ℤ) v0 vN = Except.ok (edge2dElement d v0 vN) := by
  unfold TrimmedSerendipityEdge_init edge2dElement
  rw [if_neg (by omega), if_neg (by simp), if_pos rfl]
  rfl

theorem space_dimension_twoD (el : TSElement) (l : List Vec2) (h : el.basis = .twoD l) :
    el.space_dimension = l.length ∧ el.basis.scalarLen = 2 * el.space_dimension := by
  unfold TSElement.space_dimension
  rw [h]
  simp only [TSBasis.scalarLen]
  constructor
  · exact Nat.mul_div_cancel_left l.length (by norm_num)
  · rw [Nat.mul_div_cancel_left l.length (by norm_num)]

theorem edge2dElement_basis_length (d : ℕ) (v0 vN : Fin 3 → ℚ) :
    (e_lambda_1_2d_part_one d (blend 0 v0 vN) (blend 1 v0 vN)
          (midExpr 0 v0 vN) (midExpr 1 v0 vN) ++
        (if 2 ≤ d then trimmed_f_lambda_2d d (blend 0 v0 vN) (blend 1 v0 vN)
          (midExpr 0 v0 vN) (midExpr 1 v0 vN) else [])).length
      = 4 * d + (if 2 ≤ d then 2 * natTri (d - 2) + d else 0) := by
  rw [List.length_append, length_e_lambda_1_2d_part_one]
  by_cases h2 : 2 ≤ d
  · rw [if_pos h2, if_pos h2, length_trimmed_f_lambda_2d d h2]
  · rw [if_neg h2, if_neg h2, List.length_nil]

theorem edge2dElement_space_dim (d : ℕ) (v0 vN : Fin 3 → ℚ) :
    (edge2dElement d v0 vN).space_dimension
      = 4 * d + (if 2 ≤ d then 2 * natTri (d - 2) + d else 0) := by
  rw [(space_dimension_twoD (edge2dElement d v0 vN) _ rfl).1,
    edge2dElement_basis_length]

/-! ## Claim C1 -/

/-- **C1**: for every degree `d ≥ 1` on a 2D (quadrilateral) reference cell,
`space_dimension()` of the assembled Edge element equals the allocator's total
DOF count — `4d` edge DOFs plus `2*T(d-2) + d` face DOFs when `d ≥ 2` (else 0),
with `T = triangular_number` — and the total number of scalar entries of the
order-0 basis array equals `2 * space_dimension()`. -/
theorem edge2d_space_dimension_eq_alloc_count (d : ℕ) (hd : 1 ≤ d)
    (v0 vN : Fin 3 → ℚ) (el : TSElement)
    (hel : TrimmedSerendipityEdge_init 2 (d : ℤ) v0 vN = Except.ok el) :
    (el.space_dimension : ℤ)
        = 4 * d + (if 2 ≤ d then 2 * triangular_number ((d : ℤ) - 2) + (d : ℤ) else 0)
      ∧ el.basis.scalarLen = 2 * el.space_dimension := by
  rw [edge2d_init_ok d hd v0 vN, Except.ok.injEq] at hel
  rw [← hel]
  refine ⟨?_, (space_dimension_twoD _ _ rfl).2⟩
  rw [edge2dElement_space_dim]
  by_cases h2 : 2 ≤ d
  · rw [if_pos h2, if_pos h2]
    have hcast : (d : ℤ) - 2 = ((d - 2 : ℕ) : ℤ) := by omega
    rw [hcast, triangular_number_natCast]
    push_cast
    ring
  · rw [if_neg h2, if_neg h2]
    push_cast
    ring

/-- Witness for C1 at degree 3 on the square `[-1, 1]^2`. -/
theorem edge2d_space_dimension_eq_alloc_count_witness :
    ((edge2dElement 3 cubeLo cubeHi).space_dimension : ℤ)
        = 4 * (3 : ℕ)
          + (if 2 ≤ (3 : ℕ) then 2 * triangular_number (((3 : ℕ) : ℤ) - 2) + ((3 : ℕ) : ℤ)
             else 0)
      ∧ (edge2dElement 3 cubeLo cubeHi).basis.scalarLen
          = 2 * (edge2dElement 3 cubeLo cubeHi).space_dimension :=
  edge2d_space_dimension_eq_alloc_count 3 (by norm_num) cubeLo cubeHi
    (edge2dElement 3 cubeLo cubeHi) (edge2d_init_ok 3 (by norm_num) cubeLo cubeHi)

/-! ## Claim C2 -/

/-- **C2** (amended): for every degree `d ≥ 1`, the entity-DOF map partitions a
contiguous initial range exactly — the concatenation of all entity DOF lists,
in entity order, is `[0, N)` in increasing order with no duplicates.  In 2D,
`N` equals `space_dimension()` of the assembled Edge element; in 3D, `N` is the
total allocated count `(entity_ids_3d d).total` (which `space_dimension()` does
not equal, see the counterexample). -/
theorem entity_dof_map_partitions_range (d : ℕ) (hd : 1 ≤ d)
    (v0 vN : Fin 3 → ℚ) (el : TSElement)
    (hel : TrimmedSerendipityEdge_init 2 (d : ℤ) v0 vN = Except.ok el) :
    joinIds2d (entity_ids_2d d) = List.range el.space_dimension
      ∧ (joinIds2d (entity_ids_2d d)).Nodup
      ∧ joinIds3d (entity_ids_3d d) = List.range (entity_ids_3d d).total
      ∧ (joinIds3d (entity_ids_3d d)).Nodup := by
  rw [edge2d_init_ok d hd v0 vN, Except.ok.injEq] at hel
  rw [← hel]
  refine ⟨?_, ?_, joinIds3d_eq d, ?_⟩
  · rw [edge2dElement_space_dim, joinIds2d_eq]
  · rw [joinIds2d_eq]
    exact List.nodup_range _
  · rw [joinIds3d_eq]
    exact List.nodup_range _

/-- Witness for C2 at degree 2 on the square `[-1, 1]^2`. -/
theorem entity_dof_map_partitions_range_witness :
    joinIds2d (entity_ids_2d 2) = List.range (edge2dElement 2 cubeLo cubeHi).space_dimension
      ∧ (joinIds2d (entity_ids_2d 2)).Nodup
      ∧ joinIds3d (entity_ids_3d 2) = List.range (entity_ids_3d 2).total
      ∧ (joinIds3d (entity_ids_3d 2)).Nodup :=
  entity_dof_map_partitions_range 2 (by norm_num) cubeLo cubeHi
    (edge2dElement 2 cubeLo cubeHi) (edge2d_init_ok 2 (by norm_num) cubeLo cubeHi)

/-- **C2 counterexample**: on the 3D cell at degree 1, `space_dimension()` of
the Edge element is `18` (the basis array has `12 × 3 = 36` scalar entries),
but the entity-DOF map covers exactly `[0, 12)`: index `12 < 18` appears in no
entity's list, so the map does not partition `[0, space_dimension())`. -/
theorem entity_dof_map_space_dimension_gap_3d :
    (TrimmedSerendipityEdge_init 3 ((1 : ℕ) : ℤ) cubeLo cubeHi).toOption.map
        TSElement.space_dimension = some 18
      ∧ joinIds3d (entity_ids_3d 1) = List.range 12
      ∧ ¬ (12 : ℕ) ∈ joinIds3d (entity_ids_3d 1)
      ∧ (12 : ℕ) < 18 := by
  refine ⟨rfl, rfl, ?_, by norm_num⟩
  intro h
  rw [joinIds3d_eq] at h
  have := List.mem_range.1 h
  have htot : (entity_ids_3d 1).total = 12 := rfl
  omega

/-! ## Claim C5 -/

theorem choose_ijk_total_eq (i : ℕ) : choose_ijk_total i = Nat.choose (i + 2) 2 := by
  unfold choose_ijk_total
  rw [Nat.choose_two_right]
  have hfac : Nat.factorial (2 + i) = (i + 2) * (i + 1) * Nat.factorial i := by
    rw [Nat.add_comm 2 i, Nat.factorial_succ, Nat.factorial_succ]
    ring
  rw [hfac, Nat.mul_div_mul_right _ 2 (Nat.factorial_pos i)]
  have h1 : i + 2 - 1 = i + 1 := rfl
  rw [h1]

theorem foldl_add_mul (f : ℕ → ℕ) :
    ∀ (l : List ℕ) (acc : ℕ), l.foldl (fun a i => a + f i) acc = acc + (l.map f).sum := by
  intro l
  induction l with
  | nil => intro acc; simp
  | cons x xs ih =>
      intro acc
      rw [List.foldl_cons, ih (acc + f x), List.map_cons, List.sum_cons]
      omega

/-- **C5**: the interior entity of the 3D allocator receives 0 DOFs for
`degree < 4`, exactly 6 at `degree = 4`, exactly 11 at `degree = 5`, and
`6 + 3(degree-4) + Σ_{i=0}^{degree-5} 3·C(i+2, 2)` DOFs for `degree ≥ 6`. -/
theorem interior_dof_count_3d (d : ℕ) :
    (entity_ids_3d d).interiorIds.length
      = if d < 4 then 0
        else if d = 4 then 6
        else if d = 5 then 11
        else 6 + 3 * (d - 4) + ((List.range (d - 4)).map fun i => 3 * Nat.choose (i + 2) 2).sum := by
  have hlen : (entity_ids_3d d).interiorIds.length = interior_size_3d d := by
    simp [entity_ids_3d, List.length_range']
  rw [hlen]
  unfold interior_size_3d
  by_cases h4 : 4 ≤ d
  · rw [if_pos h4, if_neg (by omega : ¬ d < 4)]
    by_cases he4 : d = 4
    · rw [if_pos he4, if_pos he4]
    · rw [if_neg he4, if_neg he4]
      by_cases he5 : d = 5
      · rw [if_pos he5, if_pos he5]
      · rw [if_neg he5, if_neg he5]
        simp only
        rw [foldl_add_mul]
        have hmap : (List.range (d - 4)).map (fun i => 3 * choose_ijk_total i)
            = (List.range (d - 4)).map fun i => 3 * Nat.choose (i + 2) 2 :=
          List.map_congr_left fun i _ => by rw [choose_ijk_total_eq]
        rw [hmap]
        omega
  · rw [if_neg h4, if_pos (by omega)]

/-! ## Claim C3 -/

/-- **C3** (code bug): at degree 4 on `[-1, 1]^3` the interior generator
enumerates exactly the triple `(0, 0, 0)` and emits exactly 3 terms, but the
z-axis term carries the blending product `dy[0]*dy[1]*dy[0]*dy[1]` instead of
the `dx[0]*dx[1]*dy[0]*dy[1]` the claim states (and which the matching tilde
generator `I_lambda_1_tilde_3d` uses): at the point `(1, 0, 0)` the emitted
scalar evaluates to `1/16` while the claimed scalar evaluates to `0`. -/
theorem I_lambda_z_axis_blend_bug :
    determine_I_lambda_1_portions_3d 4 = [(0, 0, 0)]
      ∧ (I_lambda_1_3d 4 refDx refDy refDz refXm refYm refZm).length = 3
      ∧ (I_lambda_1_3d 4 refDx refDy refDz refXm refYm refZm)[2]?
          = some (Expr.const 0, Expr.const 0, zAxisEmitted)
      ∧ zAxisEmitted.eval pt100 = 1 / 16
      ∧ zAxisClaimed.eval pt100 = 0 := by
  refine ⟨rfl, rfl, rfl, ?_, ?_⟩
  · norm_num [zAxisEmitted, Expr.eval, leg, refDy, refXm, refYm, refZm, blend,
      midExpr, cubeLo, cubeHi, pt100]
  · norm_num [zAxisClaimed, Expr.eval, leg, refDx, refDy, refXm, refYm, refZm,
      blend, midExpr, cubeLo, cubeHi, pt100]

/-! ## Claim C4 -/

theorem getElem_map_range (f : ℕ → Vec2) (d j : ℕ) (hj : j < d) :
    ((List.range d).map f)[j]? = some (f j) := by
  rw [List.getElem?_map, List.getElem?_range hj]
  rfl

theorem length_map_range (f : ℕ → Vec2) (d : ℕ) : ((List.range d).map f).length = d := by
  rw [List.length_map, List.length_range]

/-- Positions of the four part-one edge families inside
`e_lambda_1_2d_part_one`: family `i` occupies positions `i*d + j`, `j < d`. -/
theorem e_lambda_1_2d_part_one_getElem (d : ℕ) (dx dy : Expr × Expr) (xm ym : Expr)
    (j : ℕ) (hj : j < d) :
    (e_lambda_1_2d_part_one d dx dy xm ym)[j]?
        = some (Expr.const 0, Expr.mul (Expr.neg (leg j ym)) dx.1)
      ∧ (e_lambda_1_2d_part_one d dx dy xm ym)[d + j]?
        = some (Expr.const 0, Expr.mul (Expr.neg (leg j ym)) dx.2)
      ∧ (e_lambda_1_2d_part_one d dx dy xm ym)[2 * d + j]?
        = some (Expr.mul (Expr.neg (leg j xm)) dy.1, Expr.const 0)
      ∧ (e_lambda_1_2d_part_one d dx dy xm ym)[3 * d + j]?
        = some (Expr.mul (Expr.neg (leg j xm)) dy.2, Expr.const 0) := by
  unfold e_lambda_1_2d_part_one
  refine ⟨?_, ?_, ?_, ?_⟩
  · rw [List.getElem?_append_left (by simp [List.length_append]; omega),
      List.getElem?_append_left (by simp [List.length_append]; omega),
      List.getElem?_append_left (by simp; omega),
      getElem_map_range _ _ _ hj]
  · rw [List.getElem?_append_left (by simp [List.length_append]; omega),
      List.getElem?_append_left (by simp [List.length_append]; omega),
      List.getElem?_append_right (by simp), length_map_range]
    have hidx : d + j - d = j := by omega
    rw [hidx, getElem_map_range _ _ _ hj]
  · rw [List.getElem?_append_left (by simp [List.length_append]; omega),
      List.getElem?_append_right (by simp [List.length_append]; omega)]
    simp only [List.length_append, length_map_range]
    have hidx : 2 * d + j - (d + d) = j := by omega
    rw [hidx, getElem_map_range _ _ _ hj]
  · rw [List.getElem?_append_right (by simp [List.length_append]; omega)]
    simp only [List.length_append, length_map_range]
    have hidx : 3 * d + j - (d + d + d) = j := by omega
    rw [hidx, getElem_map_range _ _ _ hj]

/-- **C4** (amended): the assembled 2D Edge basis consists of exactly the
`4*degree` part-one edge terms — the four families `-P_j(y_mid)*dx[0]`,
`-P_j(y_mid)*dx[1]` into the y-component and `-P_j(x_mid)*dy[0]`,
`-P_j(x_mid)*dy[1]` into the x-component, at positions `j`, `d+j`, `2d+j`,
`3d+j` — followed by the trimmed face block; the 4 tilde closing terms of
`e_lambda_tilde_1_2d_part_two` are not part of the assembled basis. -/
theorem edge2d_basis_edge_block (d : ℕ) (_hd : 1 ≤ d) (v0 vN : Fin 3 → ℚ) :
    (edge2dElement d v0 vN).basis
        = .twoD (e_lambda_1_2d_part_one d (blend 0 v0 vN) (blend 1 v0 vN)
            (midExpr 0 v0 vN) (midExpr 1 v0 vN) ++
          (if 2 ≤ d then trimmed_f_lambda_2d d (blend 0 v0 vN) (blend 1 v0 vN)
            (midExpr 0 v0 vN) (midExpr 1 v0 vN) else []))
      ∧ (e_lambda_1_2d_part_one d (blend 0 v0 vN) (blend 1 v0 vN)
          (midExpr 0 v0 vN) (midExpr 1 v0 vN)).length = 4 * d
      ∧ ∀ j, j < d →
          (e_lambda_1_2d_part_one d (blend 0 v0 vN) (blend 1 v0 vN)
              (midExpr 0 v0 vN) (midExpr 1 v0 vN))[j]?
              = some (Expr.const 0,
                  Expr.mul (Expr.neg (leg j (midExpr 1 v0 vN))) (blend 0 v0 vN).1)
            ∧ (e_lambda_1_2d_part_one d (blend 0 v0 vN) (blend 1 v0 vN)
                (midExpr 0 v0 vN) (midExpr 1 v0 vN))[d + j]?
              = some (Expr.const 0,
                  Expr.mul (Expr.neg (leg j (midExpr 1 v0 vN))) (blend 0 v0 vN).2)
            ∧ (e_lambda_1_2d_part_one d (blend 0 v0 vN) (blend 1 v0 vN)
                (midExpr 0 v0 vN) (midExpr 1 v0 vN))[2 * d + j]?
              = some (Expr.mul (Expr.neg (leg j (midExpr 0 v0 vN))) (blend 1 v0 vN).1,
                  Expr.const 0)
            ∧ (e_lambda_1_2d_part_one d (blend 0 v0 vN) (blend 1 v0 vN)
                (midExpr 0 v0 vN) (midExpr 1 v0 vN))[3 * d + j]?
              = some (Expr.mul (Expr.neg (leg j (midExpr 0 v0 vN))) (blend 1 v0 vN).2,
                  Expr.const 0) := by
  exact ⟨rfl, length_e_lambda_1_2d_part_one d _ _ _ _,
    fun j hj => e_lambda_1_2d_part_one_getElem d _ _ _ _ j hj⟩

/-- Witness for C4 (amended) at degree 1 on `[-1, 1]^2`, with the family
positions instantiated at `j = 0`. -/
theorem edge2d_basis_edge_block_witness :
    (e_lambda_1_2d_part_one 1 (blend 0 cubeLo cubeHi) (blend 1 cubeLo cubeHi)
        (midExpr 0 cubeLo cubeHi) (midExpr 1 cubeLo cubeHi)).length = 4 * 1
      ∧ (e_lambda_1_2d_part_one 1 (blend 0 cubeLo cubeHi) (blend 1 cubeLo cubeHi)
          (midExpr 0 cubeLo cubeHi) (midExpr 1 cubeLo cubeHi))[0]?
        = some (Expr.const 0,
            Expr.mul (Expr.neg (leg 0 (midExpr 1 cubeLo cubeHi))) (blend 0 cubeLo cubeHi).1) :=
  ⟨(edge2d_basis_edge_block 1 (by norm_num) cubeLo cubeHi).2.1,
   ((edge2d_basis_edge_block 1 (by norm_num) cubeLo cubeHi).2.2 0 (by norm_num)).1⟩

/-- **C4 counterexample**: at degree 1 on `[-1, 1]^2` the assembled Edge basis
has exactly 4 entries (the part-one edge terms), every one of which has a
literal zero component; the first tilde closing term has both components
nonvanishing (at `(1/2, 1/2)` they evaluate to `-1/4` and `-3/32`) and does not
occur in the assembled basis — the 4 tilde closing terms are absent. -/
theorem edge2d_basis_missing_tilde_terms :
    (edge2dElement 1 cubeLo cubeHi).basis
        = .twoD (e_lambda_1_2d_part_one 1 refDx refDy refXm refYm)
      ∧ (e_lambda_1_2d_part_one 1 refDx refDy refXm refYm).length = 4
      ∧ ((e_lambda_1_2d_part_one 1 refDx refDy refXm refYm).all fun t =>
          decide (t.1 = Expr.const 0) || decide (t.2 = Expr.const 0)) = true
      ∧ ¬ ((e_lambda_tilde_1_2d_part_two 1 refDx refDy refXm refYm).getD 0
            (Expr.const 0, Expr.const 0))
          ∈ e_lambda_1_2d_part_one 1 refDx refDy refXm refYm
      ∧ (((e_lambda_tilde_1_2d_part_two 1 refDx refDy refXm refYm).getD 0
            (Expr.const 0, Expr.const 0)).1).eval ptHalf = -1 / 4
      ∧ (((e_lambda_tilde_1_2d_part_two 1 refDx refDy refXm refYm).getD 0
            (Expr.const 0, Expr.const 0)).2).eval ptHalf = -3 / 32 := by
  refine ⟨rfl, rfl, rfl, by decide, ?_, ?_⟩
  · norm_num [e_lambda_tilde_1_2d_part_two, Expr.eval, leg, refDx, refDy, refXm,
      refYm, blend, midExpr, cubeLo, cubeHi, ptHalf]
  · norm_num [e_lambda_tilde_1_2d_part_two, Expr.eval, leg, refDx, refDy, refXm,
      refYm, blend, midExpr, cubeLo, cubeHi, ptHalf]

/-! ## Claim C6 -/

/-- **C6** (code bug): on a 2D cell the Face constructor never produces a
basis: the local `IL` is assigned only in the `dim == 3` branch, yet
`bdmcf_list = EL + FL + IL` is evaluated unconditionally, so 2D construction
raises an unbound-local error before the rotation `[-a[1], a[0]]` can run —
while the Edge constructor on the same cell succeeds. -/
theorem face2d_init_unbound_local :
    TrimmedSerendipityFace_init 2 ((1 : ℕ) : ℤ) cubeLo cubeHi
        = Except.error (PyError.nameError "local variable 'IL' referenced before assignment")
      ∧ (TrimmedSerendipityEdge_init 2 ((1 : ℕ) : ℤ) cubeLo cubeHi).toOption.isSome = true :=
  ⟨rfl, rfl⟩

/-! ## Claim C8 -/

/-- **C8**: constructing a `TrimmedSerendipityEdge` or `TrimmedSerendipityFace`
with `degree < 1`, or with a flattened spatial dimension outside `{2, 3}`,
fails with the invalid-configuration `Exception` carrying its descriptive
message; the checks precede all symbolic work and no element value is
produced. -/
theorem invalid_configuration_rejected (dim : ℕ) (degree : ℤ) (v0 vN : Fin 3 → ℚ) :
    (degree < 1 →
        TrimmedSerendipityEdge_init dim degree v0 vN
            = Except.error (PyError.exception
                "Trimmed Serendipity_k edge elements only valid for k >= 1")
          ∧ TrimmedSerendipityFace_init dim degree v0 vN
            = Except.error (PyError.exception
                "Trimmed serendipity face elements only valid for k >= 1"))
      ∧ (¬ degree < 1 → dim ≠ 2 → dim ≠ 3 →
        TrimmedSerendipityEdge_init dim degree v0 vN
            = Except.error (PyError.exception
                "Trimmed Serendipity_k edge elements only valid for dimensions 2 and 3")
          ∧ TrimmedSerendipityFace_init dim degree v0 vN
            = Except.error (PyError.exception
                "Trimmed serendipity face elements only valid for dimensions 2 and 3")) := by
  constructor
  · intro h
    constructor
    · unfold TrimmedSerendipityEdge_init
      rw [if_pos h]
    · unfold TrimmedSerendipityFace_init
      rw [if_pos h]
  · intro h h2 h3
    constructor
    · unfold TrimmedSerendipityEdge_init
      rw [if_neg h, if_pos ⟨h2, h3⟩]
    · unfold TrimmedSerendipityFace_init
      rw [if_neg h, if_pos ⟨h2, h3⟩]

/-- Witness for C8: `degree = 0` on a 2D cell, and 1D/4D cells at degree 1. -/
theorem invalid_configuration_rejected_witness :
    TrimmedSerendipityEdge_init 2 0 cubeLo cubeHi
        = Except.error (PyError.exception
            "Trimmed Serendipity_k edge elements only valid for k >= 1")
      ∧ TrimmedSerendipityFace_init 2 0 cubeLo cubeHi
        = Except.error (PyError.exception
            "Trimmed serendipity face elements only valid for k >= 1")
      ∧ TrimmedSerendipityEdge_init 1 1 cubeLo cubeHi
        = Except.error (PyError.exception
            "Trimmed Serendipity_k edge elements only valid for dimensions 2 and 3")
      ∧ TrimmedSerendipityFace_init 4 1 cubeLo cubeHi
        = Except.error (PyError.exception
            "Trimmed serendipity face elements only valid for dimensions 2 and 3") :=
  ⟨((invalid_configuration_rejected 2 0 cubeLo cubeHi).1 (by norm_num)).1,
   ((invalid_configuration_rejected 2 0 cubeLo cubeHi).1 (by norm_num)).2,
   ((invalid_configuration_rejected 1 1 cubeLo cubeHi).2 (by norm_num) (by norm_num)
      (by norm_num)).1,
   ((invalid_configuration_rejected 4 1 cubeLo cubeHi).2 (by norm_num) (by norm_num)
      (by norm_num)).2⟩

/-! ## Claim C9 -/

/-- **C9**: on any element, `get_nodal_basis`, `get_dual_set`, `get_coeffs`,
`dmats` and `get_num_members` each fail with a `NotImplementedError`, and that
signal is distinguishable from the plain `Exception` raised for invalid
configurations (the discriminator separates the two constructors). -/
theorem unsupported_ops_not_implemented (el : TSElement) (arg : ℕ) :
    TrimmedSerendipity.get_nodal_basis el
        = Except.error (PyError.notImplementedError
            "get_nodal_basis not implemented for trimmed serendipity")
      ∧ TrimmedSerendipity.get_dual_set el
        = Except.error (PyError.notImplementedError
            "get_dual_set is not implemented for trimmed serendipity")
      ∧ TrimmedSerendipity.get_coeffs el
        = Except.error (PyError.notImplementedError
            "get_coeffs not implemented for trimmed serendipity")
      ∧ TrimmedSerendipity.dmats el = Except.error (PyError.notImplementedError "")
      ∧ TrimmedSerendipity.get_num_members el arg
        = Except.error (PyError.notImplementedError "")
      ∧ (∀ s : String, (PyError.notImplementedError s).isNotImplemented = true)
      ∧ (∀ s : String, (PyError.exception s).isNotImplemented = false) :=
  ⟨rfl, rfl, rfl, rfl, rfl, fun _ => rfl, fun _ => rfl⟩

/-! ## Claim C7 -/

/-- **C7**: from any coherent instance state, calling `tabulate` twice with the
same `(order, points, entity)` arguments returns identical arrays (the second
call running on the cache the first call left behind); raising the order never
changes the entries returned for the lower-order multi-indices; and a
multi-index already present in the derivative cache is never recomputed. -/
theorem tabulate_idempotent_and_cached (base : TSBasis) (c : DiffCache)
    (tf : ℚ × ℚ → ℚ × ℚ) (order order' : ℕ) (pts : List (ℚ × ℚ))
    (hc : Coherent base c) (hord : order ≤ order') :
    (tabulate base (tabulate base c tf order pts).cache tf order pts).phivals
        = (tabulate base c tf order pts).phivals
      ∧ (∀ α v, plookup (tabulate base c tf order pts).phivals α = some v →
          plookup (tabulate base c tf order' pts).phivals α = some v)
      ∧ ∀ α, clookup c α ≠ none → α ∉ (tabulate base c tf order pts).computed := by
  obtain ⟨h1, h2, h3⟩ := tabRun_spec base (pts.map tf) (allAlphas order) c hc
  obtain ⟨h1', _, _⟩ := tabRun_spec base (pts.map tf) (allAlphas order)
    (tabRun base (pts.map tf) (allAlphas order) c).cache h2
  obtain ⟨h1'', _, _⟩ := tabRun_spec base (pts.map tf) (allAlphas order') c hc
  simp only [tabulate]
  refine ⟨?_, ?_, ?_⟩
  · rw [h1', h1]
  · intro α v hv
    rw [h1] at hv
    obtain ⟨hmem, hval⟩ := plookup_map_some _ _ α v hv
    have hmem' : α ∈ allAlphas order' := by
      obtain ⟨a, b⟩ := α
      exact (mem_allAlphas order' a b).2
        (le_trans ((mem_allAlphas order a b).1 hmem) hord)
    rw [h1'', plookup_map _ _ α hmem', hval]
  · intro α hne hmem
    exact hne (h3 α hmem)

/-- Witness for C7: a concrete coherent state, `order = 0 ≤ 1`, one point. -/
theorem tabulate_idempotent_and_cached_witness :
    (tabulate wBase (tabulate wBase wCache id 0 [((0 : ℚ), (0 : ℚ))]).cache
          id 0 [((0 : ℚ), (0 : ℚ))]).phivals
        = (tabulate wBase wCache id 0 [((0 : ℚ), (0 : ℚ))]).phivals
      ∧ (0, 0) ∉ (tabulate wBase wCache id 0 [((0 : ℚ), (0 : ℚ))]).computed :=
  ⟨(tabulate_idempotent_and_cached wBase wCache id 0 1 [((0 : ℚ), (0 : ℚ))]
      (Coherent_init wBase) (by norm_num)).1,
   (tabulate_idempotent_and_cached wBase wCache id 0 1 [((0 : ℚ), (0 : ℚ))]
      (Coherent_init wBase) (by norm_num)).2.2 (0, 0) (by decide)⟩

/-! ## Claim C10 -/

theorem evalTable_diffA_threeD (B : List Vec3) (α : ℕ × ℕ) (pts : List (ℚ × ℚ)) :
    ((TSBasis.threeD B).diffA α).evalTable pts
      = B.map fun t => pts.map fun p =>
          ((diffXY α t.1).subXY p.1 p.2, (diffXY α t.2.1).subXY p.1 p.2) := by
  simp only [TSBasis.diffA, TSBasis.evalTable, List.map_map]
  rfl

theorem evalTable_proj (B : List Vec3) (α : ℕ × ℕ) (pts : List (ℚ × ℚ)) :
    (B.map fun t => pts.map fun p =>
        ((diffXY α t.1).subXY p.1 p.2, (diffXY α t.2.1).subXY p.1 p.2))
      = (B.map fun t => (t.1, t.2.1)).map fun q => pts.map fun p =>
          ((diffXY α q.1).subXY p.1 p.2, (diffXY α q.2).subXY p.1 p.2) := by
  rw [List.map_map]
  rfl

theorem subXY_occursVar_z (e : Expr) (px py : ℚ) :
    Expr.occursVar 2 (e.subXY px py) = Expr.occursVar 2 e := by
  induction e with
  | const c => rfl
  | var i => fin_cases i <;> rfl
  | add a b iha ihb => simp [Expr.subXY, Expr.occursVar, iha, ihb]
  | sub a b iha ihb => simp [Expr.subXY, Expr.occursVar, iha, ihb]
  | mul a b iha ihb => simp [Expr.subXY, Expr.occursVar, iha, ihb]
  | neg a iha => simp [Expr.subXY, Expr.occursVar, iha]
  | div a b iha ihb => simp [Expr.subXY, Expr.occursVar, iha, ihb]

/-- **C10**: `tabulate` substitutes point coordinates only for the first two
variables `x`, `y`, and writes only components 0 and 1 of each basis entry into
the 2-slot output arrays.  Consequently two 3D bases agreeing in their first
two components tabulate identically from the constructor state (the third
component never influences the output), every returned entry is exactly the
`x, y`-substitution of the derivative of a first-two component, and the
variable `z` survives substitution (its occurrences are preserved; `z` itself is
left unsubstituted). -/
theorem tabulate_substitutes_xy_only (B B' : List Vec3) (tf : ℚ × ℚ → ℚ × ℚ)
    (order : ℕ) (pts : List (ℚ × ℚ))
    (hproj : B.map (fun t => (t.1, t.2.1)) = B'.map fun t => (t.1, t.2.1)) :
    (tabulate (.threeD B) [((0, 0), .threeD B)] tf order pts).phivals
        = (tabulate (.threeD B') [((0, 0), .threeD B')] tf order pts).phivals
      ∧ (tabulate (.threeD B) [((0, 0), .threeD B)] tf order pts).phivals
        = (allAlphas order).map (fun α => (α,
            B.map fun t => (pts.map tf).map fun p =>
              ((diffXY α t.1).subXY p.1 p.2, (diffXY α t.2.1).subXY p.1 p.2)))
      ∧ (∀ e px py, Expr.occursVar 2 (e.subXY px py) = Expr.occursVar 2 e)
      ∧ ∀ px py : ℚ, (Expr.var 2).subXY px py = Expr.var 2 := by
  have hB := (tabRun_spec (.threeD B) (pts.map tf) (allAlphas order)
    [((0, 0), .threeD B)] (Coherent_init _)).1
  have hB' := (tabRun_spec (.threeD B') (pts.map tf) (allAlphas order)
    [((0, 0), .threeD B')] (Coherent_init _)).1
  simp only [tabulate]
  refine ⟨?_, ?_, fun e px py => subXY_occursVar_z e px py, fun px py => rfl⟩
  · rw [hB, hB']
    apply List.map_congr_left
    intro α _
    rw [Prod.mk.injEq]
    refine ⟨rfl, ?_⟩
    rw [evalTable_diffA_threeD, evalTable_diffA_threeD, evalTable_proj,
      evalTable_proj B', hproj]
  · rw [hB]
    apply List.map_congr_left
    intro α _
    rw [Prod.mk.injEq]
    exact ⟨rfl, evalTable_diffA_threeD B α (pts.map tf)⟩

/-- Witness for C10: the two concrete bases differ only in the third component
and tabulate identically. -/
theorem tabulate_substitutes_xy_only_witness :
    (tabulate (.threeD wTriple) [((0, 0), .threeD wTriple)] id 0
          [((0 : ℚ), (0 : ℚ))]).phivals
        = (tabulate (.threeD wTriple') [((0, 0), .threeD wTriple')] id 0
            [((0 : ℚ), (0 : ℚ))]).phivals
      ∧ (Expr.var 2).subXY 0 0 = Expr.var 2 :=
  ⟨(tabulate_substitutes_xy_only wTriple wTriple' id 0 [((0 : ℚ), (0 : ℚ))] rfl).1,
   (tabulate_substitutes_xy_only wTriple wTriple' id 0 [((0 : ℚ), (0 : ℚ))] rfl).2.2.2 0 0⟩
